import Mathlib

/-!
Verification of the "sede" open/closed ledger backend.

The development shallowly embeds the Go backend's core: the event ledger
(`SedeStatus`, `getLatestStatus`, `CreateStatus` as list append), the HTTP
handlers `getStatus`, `toggleStatus` (with its cooldown check and upstream
card-name lookup) and `getSpaceAPI`, and the statistics queries
`GetStatistics` and `GetWeeklyStats` from `internal/database/database.go`.

Conventions of the embedding:
* timestamps are UTC instants measured in whole seconds since the Unix epoch
  (`Nat`); the Unix epoch day 1970-01-01 was a Thursday, i.e. SQLite
  `strftime('%w', ...) = 4`;
* SQLite `date('now', '-N days')` truncates to midnight, so the trailing
  window starts at `(now / 86400 - N) * 86400` (computed in `Int` so that a
  `now` earlier than the window length behaves like the SQL date arithmetic);
* the `DailyStats.date` key is kept as the epoch-day index: the code formats
  it as a `YYYY-MM-DD` string, an order- and equality-preserving encoding, so
  `GROUP BY date ORDER BY date` is unchanged by the re-encoding;
* probabilities (`AVG` / `COUNT` ratios of SQLite doubles applied to exact
  0.0/1.0 values) are modelled exactly in `ℚ`.
-/

/-- Seconds in one calendar day. -/
def secondsPerDay : Nat := 86400

/-- Epoch-day index of a timestamp: the `GROUP BY` key behind
`strftime('%Y-%m-%d', timestamp)`. -/
def dateOf (t : Nat) : Nat := t / secondsPerDay

/-- SQLite `strftime('%w', timestamp)`: weekday with 0 = Sunday … 6 = Saturday.
The Unix epoch day was a Thursday, weekday index 4. -/
def weekdayOf (t : Nat) : Nat := (t / secondsPerDay + 4) % 7

/-- SQLite `strftime('%H', timestamp)`: hour of day, 0–23. -/
def hourOf (t : Nat) : Nat := t % secondsPerDay / 3600

/-- One row of the ledger (`database.SedeStatus`): the state after the event
and the event's UTC timestamp.  The surrogate `ID` column is insertion order,
i.e. the position in the embedding's list. -/
structure SedeStatus where
  isOpen : Bool
  timestamp : Nat
  deriving DecidableEq, Repr

/-- One comparison step of `ORDER BY timestamp desc` + `First`: keep the row
with the strictly larger timestamp. -/
def latestStep (acc : Option SedeStatus) (e : SedeStatus) : Option SedeStatus :=
  match acc with
  | none => some e
  | some b => if e.timestamp > b.timestamp then some e else some b

/-- `Repository.GetLatestStatus`: the first row of the ledger ordered by
timestamp descending; `none` models gorm's `ErrRecordNotFound` on an empty
ledger. -/
def getLatestStatus (ledger : List SedeStatus) : Option SedeStatus :=
  ledger.foldl latestStep none

/-- Go's `fmt.Sprintf("%v", b)` for a boolean. -/
def boolString (b : Bool) : String := if b then "true" else "false"

/-- `App.getStatus` as (HTTP status, body).  Every repository error — record
not found on an empty ledger included — is passed to `handleDatabaseError`,
which answers 500 "Internal server error" (the deadline-exceeded branch is
not reachable in this sequential model). -/
def getStatus (ledger : List SedeStatus) : Nat × String :=
  match getLatestStatus ledger with
  | none => (500, "Internal server error")
  | some s => (200, boolString s.isOpen)

/-- The `state` object of the SpaceAPI document: `open` is a `*bool`, whose
`none` serialises as JSON `null`. -/
structure SpaceAPIState where
  isOpenState : Option Bool
  message : String
  deriving DecidableEq, Repr

/-- `App.getSpaceAPI`, restricted to its data-dependent part: HTTP status and
the `state` object.  A record-not-found error is deliberately not treated as
a failure; the `open` pointer stays nil in that case. -/
def getSpaceAPI (ledger : List SedeStatus) : Nat × SpaceAPIState :=
  (200,
   { isOpenState := (getLatestStatus ledger).map SedeStatus.isOpen
   , message := "Ci riuniamo ogni lunedì sera dalle 21:00" })

/-- Request body of `POST /toggle` (`ToggleStatusRequest`). -/
structure ToggleStatusRequest where
  cardId : String
  hash : String
  deriving DecidableEq, Repr

/-- Behaviour of the upstream card-manager service for one lookup:
unreachable, or an HTTP response with status code and body. -/
inductive UpstreamResponse where
  | unreachable
  | response (status : Nat) (body : String)
  deriving DecidableEq, Repr

/-- The name post-processing of `App.getCardName`: first space-separated
token of the body, with double quotes removed. -/
def extractCardName (body : String) : String :=
  ((body.splitOn " ").headD "").replace "\"" ""

/-- `App.getCardName`: the upstream POST.  An unreachable service or a
non-200 response aborts the request with HTTP 502; otherwise the card name is
extracted from the body. -/
def getCardName (env : UpstreamResponse) : Except Nat String :=
  match env with
  | .unreachable => .error 502
  | .response status body =>
      if status ≠ 200 then .error 502 else .ok (extractCardName body)

/-- `cooldownPeriod = time.Minute`, in seconds. -/
def cooldownPeriod : Int := 60

/-- The 429 body: `fmt.Sprintf("Status can only be changed every %s", cooldownPeriod)`
with `time.Minute` printing as `1m0s`. -/
def cooldownMessage : String := "Status can only be changed every 1m0s"

/-- Go's `time.Since` at the instant `now`: a signed duration. -/
def timeSince (now t : Nat) : Int := (now : Int) - (t : Int)

/-- The guard `req.CardID != "" && req.Hash != ""` in front of the upstream
lookup in `App.toggleStatus`. -/
def cardLookupAttempted (req : ToggleStatusRequest) : Bool :=
  req.cardId != "" && req.hash != ""

/-- The Telegram notification text built by `App.toggleStatus`: the actor
name is appended only when a card name was resolved. -/
def notificationMessage (isOpen : Bool) (cardName : String) : String :=
  let emoji := if isOpen then "🟢" else "🔴"
  let action := if isOpen then "aperta" else "chiusa"
  if cardName != "" then emoji ++ " sede " ++ action ++ " da " ++ cardName
  else emoji ++ " sede " ++ action

/-- Result of one `POST /toggle` request: success (200, with the notification
text and the new ledger), cooldown rejection (429, ledger unchanged), or
upstream-lookup failure (502, ledger unchanged). -/
inductive ToggleOutcome where
  | ok (isOpen : Bool) (message : String) (ledger : List SedeStatus)
  | cooldownActive (status : Nat) (message : String) (ledger : List SedeStatus)
  | upstreamFailure (status : Nat) (ledger : List SedeStatus)
  deriving DecidableEq, Repr

/-- `App.toggleStatus`: read the latest event (zero-value `SedeStatus`, i.e.
closed at the epoch, when the ledger is empty), reject inside the cooldown
window, optionally resolve the card name upstream, then append the flipped
state with timestamp `now`. -/
def toggleStatus (ledger : List SedeStatus) (req : ToggleStatusRequest)
    (env : UpstreamResponse) (now : Nat) : ToggleOutcome :=
  let currentStatus := (getLatestStatus ledger).getD { isOpen := false, timestamp := 0 }
  if timeSince now currentStatus.timestamp < cooldownPeriod then
    .cooldownActive 429 cooldownMessage ledger
  else
    let lookup : Except Nat String :=
      if cardLookupAttempted req then getCardName env else .ok ""
    match lookup with
    | .error code => .upstreamFailure code ledger
    | .ok cardName =>
        let newStatus : SedeStatus := { isOpen := !currentStatus.isOpen, timestamp := now }
        .ok newStatus.isOpen (notificationMessage newStatus.isOpen cardName)
          (ledger ++ [newStatus])

/-- One row of the `GetStatistics` result (`database.DailyStats`); `date` is
kept as the epoch-day index behind the formatted date string. -/
structure DailyStats where
  date : Nat
  probability : ℚ
  deriving DecidableEq, Repr

/-- `analysisDays = 30`. -/
def analysisDays : Nat := 30

/-- Start instant of `timestamp >= date('now', '-days days')`: midnight, in
seconds, `days` days before the day of `now`. -/
def windowStart (now days : Nat) : Int :=
  ((now : Int) / secondsPerDay - days) * secondsPerDay

/-- The SQL window predicate `timestamp >= date('now', '-days days')`. -/
def inWindow (now days : Nat) (e : SedeStatus) : Bool :=
  windowStart now days ≤ (e.timestamp : Int)

/-- Sorted-insert of a day key, keeping keys distinct: the effect of
`GROUP BY date ORDER BY date` on the key column. -/
def insertDay (d : Nat) : List Nat → List Nat
  | [] => [d]
  | x :: xs =>
      if d < x then d :: x :: xs
      else if d = x then x :: xs
      else x :: insertDay d xs

/-- The distinct day keys of a list of events, ascending. -/
def dayKeys (evs : List SedeStatus) : List Nat :=
  evs.foldl (fun acc e => insertDay (dateOf e.timestamp) acc) []

/-- `Repository.GetStatistics`: total row count of the whole ledger, and per
day of the trailing 30-day window a row whose probability is
`COUNT(*) * 1.0 / analysisDays` — the day's row count divided by 30, exactly
as in the SQL (`is_open` is not consulted). -/
def getStatistics (ledger : List SedeStatus) (now : Nat) : List DailyStats × Nat :=
  let totalChanges := ledger.length
  let windowEvs := ledger.filter (inWindow now analysisDays)
  ((dayKeys windowEvs).map fun d =>
      { date := d
      , probability :=
          ((windowEvs.filter fun e => dateOf e.timestamp == d).length : ℚ) / (analysisDays : ℚ) }
   , totalChanges)

/-- The `CASE strftime('%w', timestamp) ... END` day-name mapping: anything
other than 0–5 falls to the `ELSE 'Saturday'` arm. -/
def dayName (w : Nat) : String :=
  if w == 0 then "Sunday"
  else if w == 1 then "Monday"
  else if w == 2 then "Tuesday"
  else if w == 3 then "Wednesday"
  else if w == 4 then "Thursday"
  else if w == 5 then "Friday"
  else "Saturday"

/-- `AVG(CASE WHEN is_open THEN 1.0 ELSE 0.0 END)` over a bucket, exactly:
the fraction of open rows. -/
def avgOpen (evs : List SedeStatus) : ℚ :=
  ((evs.filter fun e => e.isOpen).length : ℚ) / (evs.length : ℚ)

/-- The events of the trailing 90-day window of `GetWeeklyStats`. -/
def window90 (ledger : List SedeStatus) (now : Nat) : List SedeStatus :=
  ledger.filter (inWindow now 90)

/-- The weekday bucket of the daily query: window events on weekday `w`. -/
def dayBucket (ledger : List SedeStatus) (now : Nat) (w : Nat) : List SedeStatus :=
  (window90 ledger now).filter fun e => weekdayOf e.timestamp == w

/-- The weekday-and-hour bucket of the hourly query. -/
def hourBucket (ledger : List SedeStatus) (now : Nat) (w h : Nat) : List SedeStatus :=
  (window90 ledger now).filter fun e =>
    weekdayOf e.timestamp == w && hourOf e.timestamp == h

/-- The first raw query of `GetWeeklyStats`: one `(day name, AVG(is_open))`
row per weekday having events in the window, ordered by weekday index
(`ORDER BY strftime('%w', timestamp)`). -/
def dailyQuery (ledger : List SedeStatus) (now : Nat) : List (String × ℚ) :=
  (List.range 7).filterMap fun w =>
    let evs := dayBucket ledger now w
    if evs.isEmpty then none else some (dayName w, avgOpen evs)

/-- The hour range of the SQL filter `BETWEEN 9 AND 21`. -/
def hours921 : List Nat := (List.range 13).map fun k => k + 9

/-- The second raw query of `GetWeeklyStats`: one `(day name, hour,
AVG(is_open))` row per non-empty weekday-and-hour bucket with hour between 9
and 21, ordered by weekday index then hour. -/
def hourlyQuery (ledger : List SedeStatus) (now : Nat) : List (String × Nat × ℚ) :=
  (List.range 7).flatMap fun w =>
    hours921.filterMap fun h =>
      let evs := hourBucket ledger now w h
      if evs.isEmpty then none else some (dayName w, h, avgOpen evs)

/-- One row of a day's hourly breakdown (`database.HourlyStat`); the code's
two-digit hour string is kept as the hour number, an order- and
equality-preserving encoding for hours 09–21. -/
structure HourlyStat where
  hour : Nat
  probability : ℚ
  deriving DecidableEq, Repr

/-- One element of the `GET /stats` response (`database.WeeklyStatsDetailed`). -/
structure WeeklyStatsDetailed where
  day : String
  dailyProbability : ℚ
  hourly : List HourlyStat
  deriving DecidableEq, Repr

/-- `daysOrder` of `GetWeeklyStats`: Sunday-first. -/
def daysOrder : List String :=
  ["Sunday", "Monday", "Tuesday", "Wednesday", "Thursday", "Friday", "Saturday"]

/-- `Repository.GetWeeklyStats`: merge of the two queries.  For each day of
`daysOrder` in order: if the daily query has a row, emit it with the day's
hourly rows appended in query order; otherwise, if hourly rows exist for the
day (the Go map's fallback branch), emit them with the zero-value daily
probability; otherwise omit the day. -/
def getWeeklyStats (ledger : List SedeStatus) (now : Nat) : List WeeklyStatsDetailed :=
  let daily := dailyQuery ledger now
  let hourly := hourlyQuery ledger now
  daysOrder.filterMap fun day =>
    let hs := (hourly.filter fun r => r.1 == day).map fun r =>
      { hour := r.2.1, probability := r.2.2 }
    match daily.find? fun r => r.1 == day with
    | some r => some { day := day, dailyProbability := r.2, hourly := hs }
    | none =>
        if hs.isEmpty then none
        else some { day := day, dailyProbability := 0, hourly := hs }

/-! ## C2: status endpoint on the empty ledger -/

/-- C2 counterexample: on the empty ledger `GET /status` does not answer 200
with body "false". -/
theorem c2_status_counterexample :
    getStatus ([] : List SedeStatus) ≠ (200, "false") := by
  decide

/-- C2 (amended): on the empty ledger `GetLatestStatus` finds no record, and
`GET /status` answers 500 "Internal server error" — the record-not-found
error is routed through `handleDatabaseError` like any other failure, exactly
as the repository's own `TestGetStatus` expects. -/
theorem c2_empty_ledger_status :
    getLatestStatus ([] : List SedeStatus) = none ∧
    getStatus ([] : List SedeStatus) = (500, "Internal server error") :=
  ⟨rfl, rfl⟩

/-! ## C10: SpaceAPI state -/

/-- C10: `GET /spaceapi.json` answers 200 with `state.open` null (`none`) on
the empty ledger — not `false` — and, for a non-empty ledger, 200 with
`state.open` equal to the latest event's `isOpen`. -/
theorem c10_spaceapi_state (ledger : List SedeStatus) (s : SedeStatus)
    (h : getLatestStatus ledger = some s) :
    (getSpaceAPI ([] : List SedeStatus)).1 = 200 ∧
    (getSpaceAPI ([] : List SedeStatus)).2.isOpenState = none ∧
    (getSpaceAPI ([] : List SedeStatus)).2.isOpenState ≠ some false ∧
    (getSpaceAPI ledger).1 = 200 ∧
    (getSpaceAPI ledger).2.isOpenState = some s.isOpen := by
  refine ⟨rfl, rfl, by decide, rfl, ?_⟩
  simp [getSpaceAPI, h]

/-- C10 witness at a one-event ledger. -/
theorem c10_spaceapi_state_witness :
    getLatestStatus [({ isOpen := true, timestamp := 0 } : SedeStatus)] =
      some { isOpen := true, timestamp := 0 } ∧
    (getSpaceAPI [({ isOpen := true, timestamp := 0 } : SedeStatus)]).2.isOpenState =
      some true :=
  ⟨rfl, (c10_spaceapi_state [{ isOpen := true, timestamp := 0 }]
    { isOpen := true, timestamp := 0 } rfl).2.2.2.2⟩

/-! ## C1: GetStatistics daily probability -/

/-- The C1 failing input: 31 events, all closed, all on epoch day 99. -/
def c1Ledger : List SedeStatus :=
  (List.range 31).map fun i => { isOpen := false, timestamp := 99 * secondsPerDay + i }

/-- C1: `GetStatistics` evaluated at a ledger of 31 closed events on a single
calendar day (with `now` on day 100, so the day is inside the 30-day window):
the reported probability is 31/30 — the day's row count divided by
`analysisDays` — not the open fraction 0/31 = 0, and it exceeds 1,
contradicting the `validate:"min=0,max=1"` tag on `DailyStats.Probability`
and the range assertion in the repository's `TestGetStatistics`. -/
theorem c1_daily_probability_eval :
    getStatistics c1Ledger (100 * secondsPerDay) =
      ([{ date := 99, probability := 31 / 30 }], 31) ∧
    (1 : ℚ) < 31 / 30 ∧
    ((c1Ledger.filter fun e => e.isOpen).length : ℚ) / (c1Ledger.length : ℚ) = 0 := by
  refine ⟨?_, by norm_num, ?_⟩
  · have hw : c1Ledger.filter (inWindow (100 * secondsPerDay) analysisDays) = c1Ledger := by
      decide
    have hk : dayKeys c1Ledger = [99] := by decide
    have hc : (c1Ledger.filter fun e => dateOf e.timestamp == 99).length = 31 := by decide
    have hlen : c1Ledger.length = 31 := by decide
    simp only [getStatistics]
    rw [hw, hk]
    simp only [List.map_cons, List.map_nil]
    rw [hc, hlen]
    norm_num [analysisDays]
  · have h0 : (c1Ledger.filter fun e => e.isOpen).length = 0 := by decide
    rw [h0]
    norm_num

/-! ## C4: cooldown rejection -/

/-- C4: a toggle strictly less than `cooldownPeriod` after the latest event is
rejected with HTTP 429 and the message naming the cooldown duration, and the
ledger is returned unchanged — no event is appended. -/
theorem c4_cooldown_rejection (ledger : List SedeStatus) (req : ToggleStatusRequest)
    (env : UpstreamResponse) (now : Nat) (s : SedeStatus)
    (hlatest : getLatestStatus ledger = some s)
    (hcool : timeSince now s.timestamp < cooldownPeriod) :
    toggleStatus ledger req env now =
      .cooldownActive 429 cooldownMessage ledger := by
  simp only [toggleStatus, hlatest, Option.getD_some]
  rw [if_pos hcool]

/-- C4 witness: one event at second 1000, second toggle at second 1030. -/
theorem c4_cooldown_rejection_witness :
    getLatestStatus [({ isOpen := true, timestamp := 1000 } : SedeStatus)] =
      some { isOpen := true, timestamp := 1000 } ∧
    timeSince 1030 1000 < cooldownPeriod ∧
    toggleStatus [({ isOpen := true, timestamp := 1000 } : SedeStatus)]
        { cardId := "", hash := "" } .unreachable 1030 =
      .cooldownActive 429 cooldownMessage [{ isOpen := true, timestamp := 1000 }] :=
  ⟨rfl, by decide, c4_cooldown_rejection _ _ _ _ _ rfl (by decide)⟩

/-! ## Toggle protocol: shared lemmas -/

/-- An upstream environment in which the lookup, when performed, succeeds:
the card-manager service is reachable and answers 200. -/
def upstreamOk : UpstreamResponse → Bool
  | .unreachable => false
  | .response status _ => status == 200

/-- An upstream environment in which the lookup, when performed, fails:
the service is unreachable or answers a non-200 status. -/
def upstreamFails : UpstreamResponse → Bool
  | .unreachable => true
  | .response status _ => status != 200

/-- The card-name resolution of one toggle cannot abort: either the lookup is
skipped, or the upstream answers 200. -/
def lookupSucceeds (req : ToggleStatusRequest) (env : UpstreamResponse) : Bool :=
  !cardLookupAttempted req || upstreamOk env

theorem getCardName_ok_of_upstreamOk {env : UpstreamResponse}
    (h : upstreamOk env = true) : ∃ name, getCardName env = .ok name := by
  cases env with
  | unreachable => simp [upstreamOk] at h
  | response status body =>
      have hst : status = 200 := by simpa [upstreamOk] using h
      subst hst
      exact ⟨extractCardName body, by simp [getCardName]⟩

theorem lookup_ok {req : ToggleStatusRequest} {env : UpstreamResponse}
    (h : lookupSucceeds req env = true) :
    ∃ name, (if cardLookupAttempted req then getCardName env else .ok "") =
      Except.ok (ε := Nat) name := by
  cases hA : cardLookupAttempted req with
  | false => exact ⟨"", by simp [hA]⟩
  | true =>
      have hok : upstreamOk env = true := by simpa [lookupSucceeds, hA] using h
      obtain ⟨name, hn⟩ := getCardName_ok_of_upstreamOk hok
      exact ⟨name, by simp [hA, hn]⟩

/-- A toggle strictly after the cooldown window around the current latest
event succeeds: it reports the flipped state and appends exactly one event. -/
theorem toggle_step {ledger : List SedeStatus} {p : Nat} {b : Bool}
    (req : ToggleStatusRequest) (env : UpstreamResponse) (t : Nat)
    (hinv : (getLatestStatus ledger).getD { isOpen := false, timestamp := 0 } =
      { isOpen := b, timestamp := p })
    (ht : p + 60 ≤ t) (henv : lookupSucceeds req env = true) :
    ∃ name, toggleStatus ledger req env t =
      .ok (!b) (notificationMessage (!b) name)
        (ledger ++ [{ isOpen := !b, timestamp := t }]) := by
  obtain ⟨name, hn⟩ := lookup_ok henv
  refine ⟨name, ?_⟩
  have hnc : ¬ timeSince t p < cooldownPeriod := by
    simp only [timeSince, cooldownPeriod, not_lt]
    omega
  simp only [toggleStatus, hinv]
  rw [if_neg hnc]
  simp [hn]

theorem getLatestStatus_append (ledger : List SedeStatus) (e : SedeStatus) :
    getLatestStatus (ledger ++ [e]) = latestStep (getLatestStatus ledger) e := by
  simp [getLatestStatus, List.foldl_append]

theorem inv_append {ledger : List SedeStatus} {p : Nat} {b : Bool}
    (hinv : (getLatestStatus ledger).getD { isOpen := false, timestamp := 0 } =
      { isOpen := b, timestamp := p })
    {t : Nat} (ht : p < t) (b' : Bool) :
    (getLatestStatus (ledger ++ [{ isOpen := b', timestamp := t }])).getD
      { isOpen := false, timestamp := 0 } = { isOpen := b', timestamp := t } := by
  rw [getLatestStatus_append]
  cases hls : getLatestStatus ledger with
  | none => simp [latestStep]
  | some s =>
      have hs : s = { isOpen := b, timestamp := p } := by
        rw [hls] at hinv
        simpa using hinv
      subst hs
      simp [latestStep, ht]

/-! ## C5: upstream lookup failure -/

/-- C5: when the cooldown check passes, both request fields are non-empty (so
the card-name lookup is attempted) and the upstream service is unreachable or
answers non-200, the toggle aborts with HTTP 502 and the ledger is returned
unchanged — no event is appended. -/
theorem c5_upstream_failure (ledger : List SedeStatus) (req : ToggleStatusRequest)
    (env : UpstreamResponse) (now : Nat)
    (hcard : req.cardId ≠ "") (hhash : req.hash ≠ "")
    (hcool : cooldownPeriod ≤ timeSince now
      ((getLatestStatus ledger).getD { isOpen := false, timestamp := 0 }).timestamp)
    (hfail : upstreamFails env = true) :
    toggleStatus ledger req env now = .upstreamFailure 502 ledger := by
  have hA : cardLookupAttempted req = true := by
    simp [cardLookupAttempted, hcard, hhash]
  have hcn : getCardName env = .error 502 := by
    cases env with
    | unreachable => rfl
    | response status body =>
        have hst : status ≠ 200 := by simpa [upstreamFails] using hfail
        simp [getCardName, hst]
  simp only [toggleStatus]
  rw [if_neg (not_lt.mpr hcool)]
  simp [hA, hcn]

/-- C5 witness: empty ledger, unreachable upstream, toggle at second 60. -/
theorem c5_upstream_failure_witness :
    ((("a" : String) ≠ "") ∧ (("b" : String) ≠ "") ∧
      cooldownPeriod ≤ timeSince 60 0 ∧ upstreamFails .unreachable = true) ∧
    toggleStatus [] { cardId := "a", hash := "b" } .unreachable 60 =
      .upstreamFailure 502 [] :=
  ⟨⟨by decide, by decide, by decide, rfl⟩,
   c5_upstream_failure [] { cardId := "a", hash := "b" } .unreachable 60
     (by decide) (by decide) (by decide) rfl⟩

/-! ## C6: exactly-at-boundary cooldown -/

/-- C6: a toggle exactly `cooldownPeriod` after the latest event passes the
cooldown check (the comparison is strict `<`) and succeeds, flipping the
state and appending the new event. -/
theorem c6_boundary_passes (ledger : List SedeStatus) (req : ToggleStatusRequest)
    (env : UpstreamResponse) (now : Nat) (s : SedeStatus)
    (hlatest : getLatestStatus ledger = some s)
    (hexact : timeSince now s.timestamp = cooldownPeriod)
    (hlk : lookupSucceeds req env = true) :
    ∃ msg, toggleStatus ledger req env now =
      .ok (!s.isOpen) msg (ledger ++ [{ isOpen := !s.isOpen, timestamp := now }]) := by
  have hinv : (getLatestStatus ledger).getD { isOpen := false, timestamp := 0 } =
      { isOpen := s.isOpen, timestamp := s.timestamp } := by
    rw [hlatest]
    rfl
  have ht : s.timestamp + 60 ≤ now := by
    simp only [timeSince, cooldownPeriod] at hexact
    omega
  obtain ⟨name, h⟩ := toggle_step req env now hinv ht hlk
  exact ⟨_, h⟩

/-- C6 witness: one event at second 100, toggle at second 160 (difference
exactly one minute). -/
theorem c6_boundary_passes_witness :
    (getLatestStatus [({ isOpen := true, timestamp := 100 } : SedeStatus)] =
        some { isOpen := true, timestamp := 100 } ∧
      timeSince 160 100 = cooldownPeriod ∧
      lookupSucceeds { cardId := "", hash := "" } .unreachable = true) ∧
    ∃ msg, toggleStatus [{ isOpen := true, timestamp := 100 }]
        { cardId := "", hash := "" } .unreachable 160 =
      .ok false msg
        [{ isOpen := true, timestamp := 100 }, { isOpen := false, timestamp := 160 }] :=
  ⟨⟨rfl, by decide, rfl⟩,
   c6_boundary_passes [{ isOpen := true, timestamp := 100 }]
     { cardId := "", hash := "" } .unreachable 160
     { isOpen := true, timestamp := 100 } rfl (by decide) rfl⟩

/-! ## C9: lookup skipped on empty request fields -/

/-- C9: when `cardId` or `hash` is empty the upstream lookup is not attempted
— the outcome is the same for every upstream environment — and a successful
toggle carries the unattributed notification text (no actor name); the lookup
guard holds exactly when both fields are non-empty. -/
theorem c9_lookup_skipped (ledger : List SedeStatus) (req : ToggleStatusRequest)
    (env : UpstreamResponse) (now : Nat)
    (hempty : req.cardId = "" ∨ req.hash = "") :
    cardLookupAttempted req = false ∧
    (∀ env', toggleStatus ledger req env now = toggleStatus ledger req env' now) ∧
    (cooldownPeriod ≤ timeSince now
        ((getLatestStatus ledger).getD { isOpen := false, timestamp := 0 }).timestamp →
      toggleStatus ledger req env now =
        .ok (!((getLatestStatus ledger).getD { isOpen := false, timestamp := 0 }).isOpen)
          (notificationMessage
            (!((getLatestStatus ledger).getD { isOpen := false, timestamp := 0 }).isOpen) "")
          (ledger ++
            [{ isOpen := !((getLatestStatus ledger).getD
                { isOpen := false, timestamp := 0 }).isOpen, timestamp := now }])) ∧
    (∀ r : ToggleStatusRequest,
      cardLookupAttempted r = true ↔ (r.cardId ≠ "" ∧ r.hash ≠ "")) ∧
    notificationMessage true "" = "🟢 sede aperta" ∧
    notificationMessage false "" = "🔴 sede chiusa" := by
  have hA : cardLookupAttempted req = false := by
    rcases hempty with h | h <;> simp [cardLookupAttempted, h]
  refine ⟨hA, ?_, ?_, ?_, rfl, rfl⟩
  · intro env'
    simp [toggleStatus, hA]
  · intro hcool
    simp only [toggleStatus, hA]
    rw [if_neg (not_lt.mpr hcool)]
    simp
  · intro r
    simp [cardLookupAttempted]

/-- C9 witness: empty `cardId`, unaffected by an unreachable upstream. -/
theorem c9_lookup_skipped_witness :
    ((("" : String) = "" ∨ ("h" : String) = "") ∧
      cardLookupAttempted { cardId := "", hash := "h" } = false) ∧
    toggleStatus [] { cardId := "", hash := "h" } .unreachable 60 =
      toggleStatus [] { cardId := "", hash := "h" } (.response 500 "boom") 60 :=
  ⟨⟨Or.inl rfl,
    (c9_lookup_skipped [] { cardId := "", hash := "h" } .unreachable 60 (Or.inl rfl)).1⟩,
   (c9_lookup_skipped [] { cardId := "", hash := "h" } .unreachable 60
     (Or.inl rfl)).2.1 (.response 500 "boom")⟩

/-! ## C3: alternation of spaced toggle sequences -/

/-- One `POST /toggle` request of a sequence: its arrival time and request
body, and the upstream environment it would observe. -/
structure ToggleCall where
  time : Nat
  req : ToggleStatusRequest
  env : UpstreamResponse
  deriving DecidableEq, Repr

/-- The ledger carried out of a toggle outcome. -/
def outcomeLedger : ToggleOutcome → List SedeStatus
  | .ok _ _ l => l
  | .cooldownActive _ _ l => l
  | .upstreamFailure _ l => l

/-- The reported state of a successful toggle, `none` for a failed one. -/
def outcomeIsOpen : ToggleOutcome → Option Bool
  | .ok b _ _ => some b
  | .cooldownActive _ _ _ => none
  | .upstreamFailure _ _ => none

/-- Run a sequence of toggle requests, threading the ledger. -/
def runToggles (ledger : List SedeStatus) : List ToggleCall → List ToggleOutcome
  | [] => []
  | c :: cs =>
      let r := toggleStatus ledger c.req c.env c.time
      r :: runToggles (outcomeLedger r) cs

/-- Each call arrives at least `cooldownPeriod` (60 s) after the previous
event's timestamp, starting from the virtual epoch timestamp `prev`. -/
def spacedFrom (prev : Nat) : List ToggleCall → Bool
  | [] => true
  | c :: cs => decide (prev + 60 ≤ c.time) && spacedFrom c.time cs

/-- No call of the sequence can fail its upstream lookup. -/
def allLookupOk : List ToggleCall → Bool
  | [] => true
  | c :: cs => lookupSucceeds c.req c.env && allLookupOk cs

/-- The strictly alternating sequence of reported states starting at `b`. -/
def alternating (b : Bool) : Nat → List (Option Bool)
  | 0 => []
  | n + 1 => some b :: alternating (!b) n

theorem runToggles_alternates (calls : List ToggleCall) :
    ∀ (ledger : List SedeStatus) (p : Nat) (b : Bool),
      (getLatestStatus ledger).getD { isOpen := false, timestamp := 0 } =
        { isOpen := b, timestamp := p } →
      spacedFrom p calls = true → allLookupOk calls = true →
      (runToggles ledger calls).map outcomeIsOpen = alternating (!b) calls.length := by
  induction calls with
  | nil => intro ledger p b _ _ _; rfl
  | cons c cs ih =>
      intro ledger p b hinv hsp hok
      rw [spacedFrom, Bool.and_eq_true] at hsp
      obtain ⟨htb, hsp'⟩ := hsp
      have ht : p + 60 ≤ c.time := of_decide_eq_true htb
      rw [allLookupOk, Bool.and_eq_true] at hok
      obtain ⟨hlk, hok'⟩ := hok
      obtain ⟨name, hstep⟩ := toggle_step c.req c.env c.time hinv ht hlk
      have hinv' := inv_append hinv (show p < c.time by omega) (!b)
      have htail := ih (ledger ++ [{ isOpen := !b, timestamp := c.time }]) c.time (!b)
        hinv' hsp' hok'
      simp only [runToggles, hstep, outcomeLedger, List.map_cons, List.length_cons,
        outcomeIsOpen, alternating]
      rw [htail]

/-- C3: from the empty ledger, a sequence of toggles each arriving at least
`cooldownPeriod` after the previously appended event (the virtual epoch for
the first call) and with the lookup skipped or the upstream healthy, all
succeed and the reported states strictly alternate starting from `true`. -/
theorem c3_alternation (calls : List ToggleCall)
    (hsp : spacedFrom 0 calls = true) (hok : allLookupOk calls = true) :
    (runToggles [] calls).map outcomeIsOpen = alternating true calls.length := by
  simpa using runToggles_alternates calls [] 0 false rfl hsp hok

/-- C3 witness: three spaced calls at seconds 60, 120, 180. -/
theorem c3_alternation_witness :
    (spacedFrom 0
        [{ time := 60, req := { cardId := "", hash := "" }, env := .unreachable },
         { time := 120, req := { cardId := "", hash := "" }, env := .unreachable },
         { time := 180, req := { cardId := "", hash := "" }, env := .unreachable }] = true ∧
      allLookupOk
        [{ time := 60, req := { cardId := "", hash := "" }, env := .unreachable },
         { time := 120, req := { cardId := "", hash := "" }, env := .unreachable },
         { time := 180, req := { cardId := "", hash := "" }, env := .unreachable }] = true) ∧
    (runToggles []
        [{ time := 60, req := { cardId := "", hash := "" }, env := .unreachable },
         { time := 120, req := { cardId := "", hash := "" }, env := .unreachable },
         { time := 180, req := { cardId := "", hash := "" }, env := .unreachable }]).map
      outcomeIsOpen = alternating true 3 :=
  ⟨⟨by decide, by decide⟩,
   c3_alternation
     [{ time := 60, req := { cardId := "", hash := "" }, env := .unreachable },
      { time := 120, req := { cardId := "", hash := "" }, env := .unreachable },
      { time := 180, req := { cardId := "", hash := "" }, env := .unreachable }]
     (by decide) (by decide)⟩

/-! ## Weekly statistics: shared lemmas -/

theorem ne_nil_of_isEmpty_eq_false {α : Type} {l : List α} (h : l.isEmpty = false) :
    l ≠ [] := by
  cases l
  · simp at h
  · exact List.cons_ne_nil _ _

theorem isEmpty_eq_false_of_ne_nil {α : Type} {l : List α} (h : l ≠ []) :
    l.isEmpty = false := by
  cases l
  · exact absurd rfl h
  · rfl

theorem mem_hours921 {h : Nat} (hh : h ∈ hours921) : 9 ≤ h ∧ h ≤ 21 := by
  simp only [hours921, List.mem_map, List.mem_range] at hh
  obtain ⟨k, hk, rfl⟩ := hh
  omega

theorem mem_dailyQuery {ledger : List SedeStatus} {now : Nat} {r : String × ℚ}
    (h : r ∈ dailyQuery ledger now) :
    ∃ w, w < 7 ∧ dayBucket ledger now w ≠ [] ∧
      r = (dayName w, avgOpen (dayBucket ledger now w)) := by
  simp only [dailyQuery, List.mem_filterMap, List.mem_range] at h
  obtain ⟨w, hw, hfw⟩ := h
  cases hne : (dayBucket ledger now w).isEmpty with
  | true => rw [hne] at hfw; simp at hfw
  | false =>
      rw [hne] at hfw
      simp only [Bool.false_eq_true, if_false, Option.some.injEq] at hfw
      exact ⟨w, hw, ne_nil_of_isEmpty_eq_false hne, hfw.symm⟩

theorem dailyQuery_mem_of_ne {ledger : List SedeStatus} {now : Nat} {w : Nat}
    (hw : w < 7) (hne : dayBucket ledger now w ≠ []) :
    (dayName w, avgOpen (dayBucket ledger now w)) ∈ dailyQuery ledger now := by
  simp only [dailyQuery, List.mem_filterMap, List.mem_range]
  exact ⟨w, hw, by rw [isEmpty_eq_false_of_ne_nil hne]; rfl⟩

theorem mem_hourlyQuery {ledger : List SedeStatus} {now : Nat} {r : String × Nat × ℚ}
    (h : r ∈ hourlyQuery ledger now) :
    ∃ w, w < 7 ∧ ∃ hr, hr ∈ hours921 ∧ hourBucket ledger now w hr ≠ [] ∧
      r = (dayName w, hr, avgOpen (hourBucket ledger now w hr)) := by
  simp only [hourlyQuery, List.mem_flatMap, List.mem_range, List.mem_filterMap] at h
  obtain ⟨w, hw, hr, hhr, hfw⟩ := h
  cases hne : (hourBucket ledger now w hr).isEmpty with
  | true => rw [hne] at hfw; simp at hfw
  | false =>
      rw [hne] at hfw
      simp only [Bool.false_eq_true, if_false, Option.some.injEq] at hfw
      exact ⟨w, hw, hr, hhr, ne_nil_of_isEmpty_eq_false hne, hfw.symm⟩

/-- Membership in the merged `GetWeeklyStats` result, unpacked: the day is one
of `daysOrder`, the hourly list is exactly the day's hourly-query rows in
order, and the daily probability comes from the daily query's row for that
day — or, in the Go map's fallback branch, the daily query has no row for the
day, the hourly list is non-empty and the probability is the zero value. -/
theorem mem_getWeeklyStats {ledger : List SedeStatus} {now : Nat}
    {stat : WeeklyStatsDetailed} (h : stat ∈ getWeeklyStats ledger now) :
    stat.day ∈ daysOrder ∧
    stat.hourly = ((hourlyQuery ledger now).filter fun r => r.1 == stat.day).map
      (fun r => { hour := r.2.1, probability := r.2.2 }) ∧
    ((∃ r ∈ dailyQuery ledger now, r.1 = stat.day ∧ stat.dailyProbability = r.2) ∨
      ((∀ r ∈ dailyQuery ledger now, r.1 ≠ stat.day) ∧ stat.hourly ≠ [] ∧
        stat.dailyProbability = 0)) := by
  simp only [getWeeklyStats, List.mem_filterMap] at h
  obtain ⟨day, hday, hf⟩ := h
  cases hfind : (dailyQuery ledger now).find? fun r => r.1 == day with
  | some r =>
      rw [hfind] at hf
      injection hf with hf
      subst hf
      have hpr : (r.1 == day) = true :=
        List.find?_some (p := fun x : String × ℚ => x.1 == day) hfind
      exact ⟨hday, rfl, Or.inl ⟨r, List.mem_of_find?_eq_some hfind,
        show r.1 = day from eq_of_beq hpr, rfl⟩⟩
  | none =>
      rw [hfind] at hf
      cases hH : (((hourlyQuery ledger now).filter fun r => r.1 == day).map
          (fun r => ({ hour := r.2.1, probability := r.2.2 } : HourlyStat))).isEmpty with
      | true => rw [hH] at hf; simp at hf
      | false =>
          rw [hH] at hf
          simp only [Bool.false_eq_true, if_false, Option.some.injEq] at hf
          subst hf
          refine ⟨hday, rfl, Or.inr ⟨?_, ne_nil_of_isEmpty_eq_false hH, rfl⟩⟩
          intro r hr hr1
          exact (List.find?_eq_none.mp hfind r hr) (beq_iff_eq.mpr hr1)

theorem pairwise_filterMap_of {α β : Type} {S : α → α → Prop} {R : β → β → Prop}
    (f : α → Option β)
    (h : ∀ a b x y, S a b → f a = some x → f b = some y → R x y) :
    ∀ {l : List α}, l.Pairwise S → (l.filterMap f).Pairwise R := by
  intro l hl
  induction hl with
  | nil => simp
  | cons ha _ ih =>
      rename_i a t _
      cases hfa : f a with
      | none => simpa [List.filterMap_cons, hfa] using ih
      | some x =>
          rw [List.filterMap_cons, hfa]
          refine List.Pairwise.cons ?_ ih
          intro y hy
          obtain ⟨b, hb, hfb⟩ := List.mem_filterMap.mp hy
          exact h a b x y (ha b hb) hfa hfb

theorem pairwise_flatMap_of {α β : Type} {S : α → α → Prop} {R : β → β → Prop}
    (f : α → List β) (hin : ∀ a, (f a).Pairwise R)
    (hcross : ∀ a b, S a b → ∀ x ∈ f a, ∀ y ∈ f b, R x y) :
    ∀ {l : List α}, l.Pairwise S → (l.flatMap f).Pairwise R := by
  intro l hl
  induction hl with
  | nil => simp
  | cons ha _ ih =>
      rename_i a t _
      rw [List.flatMap_cons, List.pairwise_append]
      refine ⟨hin a, ih, ?_⟩
      intro x hx y hy
      obtain ⟨b, hb, hyb⟩ := List.mem_flatMap.mp hy
      exact hcross a b (ha b hb) x hx y hyb

theorem dayName_inj : ∀ w, w < 7 → ∀ w', w' < 7 → dayName w = dayName w' → w = w' := by
  decide

theorem hours921_pairwise : hours921.Pairwise (· < ·) := by
  rw [hours921]
  exact List.pairwise_map.mpr ((List.pairwise_lt_range 13).imp fun h => by omega)

/-- Extract the content of one produced query row. -/
theorem hourRow_eq {B : List SedeStatus} {d : String} {h : Nat} {x : String × Nat × ℚ}
    (hx : (if B.isEmpty = true then none else some (d, h, avgOpen B)) = some x) :
    B ≠ [] ∧ x = (d, h, avgOpen B) := by
  cases hne : B.isEmpty with
  | true => rw [hne] at hx; simp at hx
  | false =>
      rw [hne] at hx
      simp only [Bool.false_eq_true, if_false, Option.some.injEq] at hx
      exact ⟨ne_nil_of_isEmpty_eq_false hne, hx.symm⟩

/-- The hourly query is sorted: rows with the same day name appear in
strictly increasing hour order. -/
theorem hourlyQuery_pairwise (ledger : List SedeStatus) (now : Nat) :
    (hourlyQuery ledger now).Pairwise fun r s => r.1 = s.1 → r.2.1 < s.2.1 := by
  rw [hourlyQuery]
  have hrange : (List.range 7).Pairwise fun a b => a < b ∧ a < 7 ∧ b < 7 :=
    List.Pairwise.imp_of_mem
      (fun ha hb hlt => ⟨hlt, List.mem_range.mp ha, List.mem_range.mp hb⟩)
      (List.pairwise_lt_range 7)
  refine pairwise_flatMap_of _ ?_ ?_ hrange
  · intro w
    refine pairwise_filterMap_of _ ?_ hours921_pairwise
    intro h1 h2 x y hlt hx hy
    obtain ⟨-, hx'⟩ := hourRow_eq hx
    obtain ⟨-, hy'⟩ := hourRow_eq hy
    subst hx'
    subst hy'
    intro _
    exact hlt
  · intro w w' hS x hx y hy heq
    obtain ⟨h1, hh1, hfx⟩ := List.mem_filterMap.mp hx
    obtain ⟨h2, hh2, hfy⟩ := List.mem_filterMap.mp hy
    obtain ⟨-, hx'⟩ := hourRow_eq hfx
    obtain ⟨-, hy'⟩ := hourRow_eq hfy
    subst hx'
    subst hy'
    exact absurd (dayName_inj w hS.2.1 w' hS.2.2 heq) (Nat.ne_of_lt hS.1)

/-- The hourly breakdown attached to any day of the merged result is strictly
increasing in the hour. -/
theorem hourly_filtered_sorted (ledger : List SedeStatus) (now : Nat) (day : String) :
    ((((hourlyQuery ledger now).filter fun r => r.1 == day).map
      (fun r => ({ hour := r.2.1, probability := r.2.2 } : HourlyStat))).Pairwise
      fun a b => a.hour < b.hour) := by
  have hpf := (hourlyQuery_pairwise ledger now).filter fun r => r.1 == day
  have hmem : ∀ r ∈ (hourlyQuery ledger now).filter (fun r => r.1 == day),
      r.1 = day := by
    intro r hr
    exact eq_of_beq (List.mem_filter.mp hr).2
  have hpf2 : ((hourlyQuery ledger now).filter fun r => r.1 == day).Pairwise
      fun r s => r.2.1 < s.2.1 :=
    List.Pairwise.imp_of_mem
      (fun ha hb h => h (by rw [hmem _ ha, hmem _ hb])) hpf
  exact List.pairwise_map.mpr hpf2

theorem filterMap_day_sublist (f : String → Option WeeklyStatsDetailed)
    (hf : ∀ d s, f d = some s → s.day = d) :
    ∀ l : List String, ((l.filterMap f).map WeeklyStatsDetailed.day).Sublist l := by
  intro l
  induction l with
  | nil => simp
  | cons a t ih =>
      cases hfa : f a with
      | none =>
          rw [List.filterMap_cons, hfa]
          exact ih.cons a
      | some s =>
          rw [List.filterMap_cons, hfa, List.map_cons, hf a s hfa]
          exact ih.cons₂ a

/-- Every row the merge emits for a day carries that day's name. -/
theorem weekly_row_day (ledger : List SedeStatus) (now : Nat) (d : String)
    (s : WeeklyStatsDetailed)
    (hf : (match (dailyQuery ledger now).find? fun r => r.1 == d with
          | some r => some (WeeklyStatsDetailed.mk d r.2
              (((hourlyQuery ledger now).filter fun r => r.1 == d).map
                (fun r => HourlyStat.mk r.2.1 r.2.2)))
          | none =>
              if (((hourlyQuery ledger now).filter fun r => r.1 == d).map
                  (fun r => HourlyStat.mk r.2.1 r.2.2)).isEmpty
              then none
              else some (WeeklyStatsDetailed.mk d 0
                (((hourlyQuery ledger now).filter fun r => r.1 == d).map
                  (fun r => HourlyStat.mk r.2.1 r.2.2)))) =
        some s) :
    s.day = d := by
  cases hfind : (dailyQuery ledger now).find? fun r => r.1 == d with
  | some r =>
      rw [hfind] at hf
      injection hf with hf
      rw [← hf]
  | none =>
      rw [hfind] at hf
      cases hH : (((hourlyQuery ledger now).filter fun r => r.1 == d).map
          (fun r => ({ hour := r.2.1, probability := r.2.2 } : HourlyStat))).isEmpty with
      | true => rw [hH] at hf; simp at hf
      | false =>
          rw [hH] at hf
          simp only [Bool.false_eq_true, if_false, Option.some.injEq] at hf
          rw [← hf]

/-- The merged result lists its days as a subsequence of the Sunday-first
`daysOrder`. -/
theorem weekly_day_sublist (ledger : List SedeStatus) (now : Nat) :
    (((getWeeklyStats ledger now).map WeeklyStatsDetailed.day).Sublist daysOrder) :=
  filterMap_day_sublist _ (weekly_row_day ledger now) daysOrder

/-- The probability a reported bucket carries: the bucket is non-empty, the
value is the open fraction, it lies in `[0, 1]`, and it is exactly 1 (resp.
0) when every (resp. no) event of the bucket is open. -/
def BucketSpec (bucket : List SedeStatus) (p : ℚ) : Prop :=
  bucket ≠ [] ∧
  p = ((bucket.filter fun e => e.isOpen).length : ℚ) / (bucket.length : ℚ) ∧
  0 ≤ p ∧ p ≤ 1 ∧
  ((∀ e ∈ bucket, e.isOpen = true) → p = 1) ∧
  ((∀ e ∈ bucket, e.isOpen = false) → p = 0)

theorem bucketSpec_avgOpen {bucket : List SedeStatus} (hne : bucket ≠ []) :
    BucketSpec bucket (avgOpen bucket) := by
  have hpos : 0 < bucket.length := List.length_pos.mpr hne
  have hq : (0 : ℚ) < (bucket.length : ℚ) := by exact_mod_cast hpos
  refine ⟨hne, rfl, ?_, ?_, ?_, ?_⟩
  · exact div_nonneg (by positivity) hq.le
  · rw [avgOpen, div_le_one hq]
    exact_mod_cast List.length_filter_le _ _
  · intro hall
    rw [avgOpen, List.filter_eq_self.mpr hall, div_self hq.ne']
  · intro hnone
    have h0 : bucket.filter (fun e => e.isOpen) = [] :=
      List.filter_eq_nil_iff.mpr fun a ha => by simp [hnone a ha]
    rw [avgOpen, h0]
    simp

/-! ## C7: shape of the weekly breakdown -/

/-- C7: for every ledger and instant, `GetWeeklyStats` reports no hour
outside `[9, 21]`, no weekday without an event in the trailing 90-day window,
lists its weekdays in Sunday-first order (a subsequence of `daysOrder`), and
lists each day's hourly entries in strictly ascending hour order. -/
theorem c7_weekly_shape (ledger : List SedeStatus) (now : Nat) :
    (((getWeeklyStats ledger now).map WeeklyStatsDetailed.day).Sublist daysOrder) ∧
    ∀ stat ∈ getWeeklyStats ledger now,
      (∀ x ∈ stat.hourly, 9 ≤ x.hour ∧ x.hour ≤ 21) ∧
      (∃ e, e ∈ ledger ∧ inWindow now 90 e = true ∧
        dayName (weekdayOf e.timestamp) = stat.day) ∧
      stat.hourly.Pairwise fun a b => a.hour < b.hour := by
  refine ⟨weekly_day_sublist ledger now, ?_⟩
  intro stat hstat
  obtain ⟨hday, hhourly, hdaily⟩ := mem_getWeeklyStats hstat
  refine ⟨?_, ?_, ?_⟩
  · intro x hx
    rw [hhourly] at hx
    obtain ⟨r, hr, hxr⟩ := List.mem_map.mp hx
    have hrq := (List.mem_filter.mp hr).1
    obtain ⟨w, hw, h9, hh9, hbne, rfl⟩ := mem_hourlyQuery hrq
    subst hxr
    simpa using mem_hours921 hh9
  · rcases hdaily with ⟨r, hr, hr1, -⟩ | ⟨-, hne, -⟩
    · obtain ⟨w, hw, hbne, rfl⟩ := mem_dailyQuery hr
      obtain ⟨e, he⟩ := List.exists_mem_of_ne_nil _ hbne
      have h1 := List.mem_filter.mp he
      have h2 := List.mem_filter.mp h1.1
      refine ⟨e, h2.1, h2.2, ?_⟩
      have hww : weekdayOf e.timestamp = w := by simpa using h1.2
      rw [hww]
      exact hr1
    · rw [hhourly] at hne
      have hfne : ((hourlyQuery ledger now).filter fun r => r.1 == stat.day) ≠ [] := by
        intro h0
        rw [h0] at hne
        exact hne rfl
      obtain ⟨r, hrmem⟩ := List.exists_mem_of_ne_nil _ hfne
      have hrq := (List.mem_filter.mp hrmem).1
      have hr1 : r.1 = stat.day := by simpa using (List.mem_filter.mp hrmem).2
      obtain ⟨w, hw, h9, hh9, hbne, rfl⟩ := mem_hourlyQuery hrq
      obtain ⟨e, he⟩ := List.exists_mem_of_ne_nil _ hbne
      have h1 := List.mem_filter.mp he
      have h2 := List.mem_filter.mp h1.1
      have hand : weekdayOf e.timestamp = w ∧ hourOf e.timestamp = h9 := by
        simpa using h1.2
      refine ⟨e, h2.1, h2.2, ?_⟩
      rw [hand.1]
      exact hr1
  · rw [hhourly]
    exact hourly_filtered_sorted ledger now stat.day

/-! ## C8: bucket probabilities -/

/-- C8: every daily and hourly probability reported by `GetWeeklyStats` is
the exact open fraction of a non-empty weekday (resp. weekday-and-hour)
bucket of the trailing 90-day window: it lies in `[0, 1]`, equals 1 exactly
when every event of the bucket is open and 0 when none is, and empty buckets
are never reported. -/
theorem c8_bucket_probabilities (ledger : List SedeStatus) (now : Nat)
    (stat : WeeklyStatsDetailed) (hstat : stat ∈ getWeeklyStats ledger now) :
    (∃ w, w < 7 ∧ stat.day = dayName w ∧
      BucketSpec (dayBucket ledger now w) stat.dailyProbability) ∧
    ∀ x ∈ stat.hourly, ∃ w, w < 7 ∧ stat.day = dayName w ∧
      BucketSpec (hourBucket ledger now w x.hour) x.probability := by
  obtain ⟨hday, hhourly, hdaily⟩ := mem_getWeeklyStats hstat
  constructor
  · rcases hdaily with ⟨r, hr, hr1, hprob⟩ | ⟨hnone, hne, -⟩
    · obtain ⟨w, hw, hbne, rfl⟩ := mem_dailyQuery hr
      refine ⟨w, hw, hr1.symm, ?_⟩
      rw [hprob]
      exact bucketSpec_avgOpen hbne
    · exfalso
      rw [hhourly] at hne
      have hfne : ((hourlyQuery ledger now).filter fun r => r.1 == stat.day) ≠ [] := by
        intro h0
        rw [h0] at hne
        exact hne rfl
      obtain ⟨r, hrmem⟩ := List.exists_mem_of_ne_nil _ hfne
      have hrq := (List.mem_filter.mp hrmem).1
      have hr1 : r.1 = stat.day := by simpa using (List.mem_filter.mp hrmem).2
      obtain ⟨w, hw, h9, hh9, hbne, rfl⟩ := mem_hourlyQuery hrq
      obtain ⟨e, he⟩ := List.exists_mem_of_ne_nil _ hbne
      have h1 := List.mem_filter.mp he
      have hand : weekdayOf e.timestamp = w ∧ hourOf e.timestamp = h9 := by
        simpa using h1.2
      have hmemday : e ∈ dayBucket ledger now w :=
        List.mem_filter.mpr ⟨h1.1, by simpa using hand.1⟩
      have hdne : dayBucket ledger now w ≠ [] := by
        intro h0
        rw [h0] at hmemday
        exact (List.not_mem_nil e) hmemday
      exact hnone _ (dailyQuery_mem_of_ne hw hdne)
        (show (dayName w, avgOpen (dayBucket ledger now w)).1 = stat.day from hr1)
  · intro x hx
    rw [hhourly] at hx
    obtain ⟨r, hrmem, hxr⟩ := List.mem_map.mp hx
    have hrq := (List.mem_filter.mp hrmem).1
    have hr1 : r.1 = stat.day := by simpa using (List.mem_filter.mp hrmem).2
    obtain ⟨w, hw, h9, hh9, hbne, rfl⟩ := mem_hourlyQuery hrq
    subst hxr
    exact ⟨w, hw, hr1.symm, bucketSpec_avgOpen hbne⟩

/-- Concrete evaluation: one open event on a Monday (epoch day 4) at 10:00,
queried shortly afterwards. -/
theorem weeklyExample_eval :
    getWeeklyStats [{ isOpen := true, timestamp := 381600 }] 500000 =
      [{ day := "Monday", dailyProbability := 1,
         hourly := [{ hour := 10, probability := 1 }] }] := by
  simp [getWeeklyStats, dailyQuery, hourlyQuery, dayBucket, hourBucket, window90, inWindow,
    windowStart, weekdayOf, hourOf, dayName, avgOpen, hours921, daysOrder, secondsPerDay,
    List.range_succ]

/-- C7 witness at the one-event ledger. -/
theorem c7_weekly_shape_witness :
    ({ day := "Monday", dailyProbability := 1,
       hourly := [{ hour := 10, probability := 1 }] } : WeeklyStatsDetailed) ∈
      getWeeklyStats [{ isOpen := true, timestamp := 381600 }] 500000 ∧
    ({ hour := 10, probability := 1 } : HourlyStat) ∈
      ({ day := "Monday", dailyProbability := 1,
         hourly := [{ hour := 10, probability := 1 }] } : WeeklyStatsDetailed).hourly ∧
    (9 ≤ ({ hour := 10, probability := 1 } : HourlyStat).hour ∧
      ({ hour := 10, probability := 1 } : HourlyStat).hour ≤ 21) :=
  ⟨by simp [weeklyExample_eval], by simp,
   ((c7_weekly_shape [{ isOpen := true, timestamp := 381600 }] 500000).2
     { day := "Monday", dailyProbability := 1,
       hourly := [{ hour := 10, probability := 1 }] }
     (by simp [weeklyExample_eval])).1
     { hour := 10, probability := 1 } (by simp)⟩

/-- C8 witness at the one-event ledger. -/
theorem c8_bucket_probabilities_witness :
    ({ day := "Monday", dailyProbability := 1,
       hourly := [{ hour := 10, probability := 1 }] } : WeeklyStatsDetailed) ∈
      getWeeklyStats [{ isOpen := true, timestamp := 381600 }] 500000 ∧
    (∃ w, w < 7 ∧
      ({ day := "Monday", dailyProbability := 1,
         hourly := [{ hour := 10, probability := 1 }] } : WeeklyStatsDetailed).day =
        dayName w ∧
      BucketSpec (dayBucket [{ isOpen := true, timestamp := 381600 }] 500000 w)
        ({ day := "Monday", dailyProbability := 1,
           hourly := [{ hour := 10, probability := 1 }] } :
          WeeklyStatsDetailed).dailyProbability) :=
  ⟨by simp [weeklyExample_eval],
   (c8_bucket_probabilities [{ isOpen := true, timestamp := 381600 }] 500000
     { day := "Monday", dailyProbability := 1,
       hourly := [{ hour := 10, probability := 1 }] }
     (by simp [weeklyExample_eval])).1⟩
